import Mathlib

/-!
Shallow embedding of the RF dimensioning engine of `src/app.py`
(Telecom-sizing): propagation models, link-budget computation, the
bisection search for the maximum feasible cell radius, and the
dimensioning pipeline.  Real-valued arithmetic is modelled over `ℝ`;
Python's `math.log10`, which raises `ValueError: math domain error` on a
non-positive argument, is modelled as an `Except`-valued function, and the
`KeyError` of the technology lookup and the `ZeroDivisionError` of the
cell-count division are modelled as distinct error values.
-/

namespace App

/-- Errors the Python code can raise inside the engine: a `math domain
error` from `math.log10`, a `KeyError` from the technology lookup, and a
`ZeroDivisionError` from `surface_total / cell_area`. -/
inductive PyError where
  | domainError : PyError
  | keyError : PyError
  | zeroDivisionError : PyError
deriving DecidableEq

/-- Base-10 logarithm over the reals (value level). -/
noncomputable def log10 (x : ℝ) : ℝ := Real.logb 10 x

/-- Model of Python's `math.log10`: returns the base-10 logarithm for a
strictly positive argument and raises a domain error otherwise. -/
noncomputable def math_log10 (x : ℝ) : Except PyError ℝ :=
  if 0 < x then .ok (log10 x) else .error .domainError

/-- Model of Python's `int()` conversion on a float: truncation toward
zero. -/
noncomputable def int_trunc (x : ℝ) : ℤ :=
  if 0 ≤ x then ⌊x⌋ else ⌈x⌉

/-- `free_space_path_loss` from `src/app.py`:
`32.45 + 20*log10(frequency) + 20*log10(distance)`. -/
noncomputable def free_space_path_loss (frequency distance : ℝ) : Except PyError ℝ := do
  let lf ← math_log10 frequency
  let ld ← math_log10 distance
  return 32.45 + 20 * lf + 20 * ld

/-- `okumura_hata_path_loss` from `src/app.py`: mobile-antenna correction
`ahm` (one formula for `150 ≤ f ≤ 1500`, another otherwise), base urban
loss, then a subtractive correction for `suburban` / `rural`. -/
noncomputable def okumura_hata_path_loss (frequency distance hb hm : ℝ)
    (environment : String) : Except PyError ℝ := do
  let ahm ←
    if 150 ≤ frequency ∧ frequency ≤ 1500 then do
      let lf ← math_log10 frequency
      Except.ok ((1.1 * lf - 0.7) * hm - (1.56 * lf - 0.8))
    else do
      let l ← math_log10 (11.75 * hm)
      Except.ok (3.2 * l ^ 2 - 4.97)
  let lf ← math_log10 frequency
  let lhb ← math_log10 hb
  let ld ← math_log10 distance
  let path_loss := 69.55 + 26.16 * lf - 13.82 * lhb - ahm + (44.9 - 6.55 * lhb) * ld
  if environment = "suburban" then do
    let lf28 ← math_log10 (frequency / 28)
    Except.ok (path_loss - 2 * lf28 ^ 2 - 5.4)
  else if environment = "rural" then
    Except.ok (path_loss - 4.78 * lf ^ 2 + 18.33 * lf - 40.94)
  else
    Except.ok path_loss

/-- One entry of the `TELECOM_TECHNOLOGIES` table of `src/app.py`. -/
structure TechParams where
  name : String
  frequency_bands : List (String × ℝ)
  channel_spacing : ℝ
  tx_power_max : ℝ
  rx_sensitivity : ℝ
  noise_figure : ℝ
  fade_margin : ℝ
  interference_margin : ℝ
  body_loss : ℝ
  cost_per_bts : ℝ
  cost_per_channel : ℝ

/-- The `GSM` entry of `TELECOM_TECHNOLOGIES`. -/
def gsmParams : TechParams where
  name := "GSM (2G)"
  frequency_bands := [("900", 900), ("1800", 1800)]
  channel_spacing := 0.2
  tx_power_max := 43
  rx_sensitivity := -104
  noise_figure := 5
  fade_margin := 10
  interference_margin := 3
  body_loss := 3
  cost_per_bts := 50000
  cost_per_channel := 2000

/-- The `UMTS` entry of `TELECOM_TECHNOLOGIES`. -/
def umtsParams : TechParams where
  name := "UMTS (3G)"
  frequency_bands := [("2100", 2100), ("900", 900)]
  channel_spacing := 5
  tx_power_max := 43
  rx_sensitivity := -117
  noise_figure := 7
  fade_margin := 12
  interference_margin := 5
  body_loss := 3
  cost_per_bts := 80000
  cost_per_channel := 5000

/-- The `LTE` entry of `TELECOM_TECHNOLOGIES`. -/
def lteParams : TechParams where
  name := "LTE (4G)"
  frequency_bands := [("800", 800), ("1800", 1800), ("2600", 2600)]
  channel_spacing := 20
  tx_power_max := 46
  rx_sensitivity := -120
  noise_figure := 6
  fade_margin := 8
  interference_margin := 4
  body_loss := 3
  cost_per_bts := 120000
  cost_per_channel := 8000

/-- The `TELECOM_TECHNOLOGIES` dict as a keyed lookup: `some` for the
three known keys, `none` (a `KeyError` at the use site) otherwise. -/
def TELECOM_TECHNOLOGIES (technology : String) : Option TechParams :=
  if technology = "GSM" then some gsmParams
  else if technology = "UMTS" then some umtsParams
  else if technology = "LTE" then some lteParams
  else none

/-- The dict returned by `link_budget_calculation` in `src/app.py`. -/
structure LinkBudgetResult where
  tx_power : ℝ
  rx_sensitivity : ℝ
  path_loss : ℝ
  fade_margin : ℝ
  interference_margin : ℝ
  body_loss : ℝ
  tx_antenna_gain : ℝ
  rx_antenna_gain : ℝ
  received_power : ℝ
  link_margin : ℝ
  link_feasible : Prop

/-- `link_budget_calculation` from `src/app.py`. -/
noncomputable def link_budget_calculation (tech_params : TechParams)
    (frequency distance hb hm : ℝ) (environment : String) :
    Except PyError LinkBudgetResult := do
  let tx_power := tech_params.tx_power_max
  let rx_sensitivity := tech_params.rx_sensitivity
  let path_loss ←
    if environment = "free_space" then free_space_path_loss frequency distance
    else okumura_hata_path_loss frequency distance hb hm environment
  let fade_margin := tech_params.fade_margin
  let interference_margin := tech_params.interference_margin
  let body_loss := tech_params.body_loss
  let tx_antenna_gain : ℝ := 18
  let rx_antenna_gain : ℝ := 0
  let received_power := tx_power + tx_antenna_gain + rx_antenna_gain -
    path_loss - fade_margin - interference_margin - body_loss
  let link_margin := received_power - rx_sensitivity
  return { tx_power := tx_power, rx_sensitivity := rx_sensitivity,
           path_loss := path_loss, fade_margin := fade_margin,
           interference_margin := interference_margin, body_loss := body_loss,
           tx_antenna_gain := tx_antenna_gain, rx_antenna_gain := rx_antenna_gain,
           received_power := received_power, link_margin := link_margin,
           link_feasible := link_margin > 0 }

section
open Classical

/-- The while loop of `calculate_cell_radius`, with an explicit iteration
budget.  Each pass of the Python loop tests
`max_radius - min_radius > tolerance`, evaluates the link budget at the
midpoint, and moves one bracket end to the midpoint; the loop provably
exits after at most 13 iterations from the bracket `(0.1, 50)` with
tolerance `0.01` (see `bisect_fuel_stable` below), so a budget of 13
realizes the loop exactly. -/
noncomputable def bisect (F : ℝ → Except PyError Prop) (tolerance : ℝ) :
    ℕ → ℝ → ℝ → Except PyError ℝ
  | 0, min_radius, _ => .ok min_radius
  | n + 1, min_radius, max_radius =>
    if tolerance < max_radius - min_radius then do
      let feasible ← F ((min_radius + max_radius) / 2)
      if feasible then bisect F tolerance n ((min_radius + max_radius) / 2) max_radius
      else bisect F tolerance n min_radius ((min_radius + max_radius) / 2)
    else .ok min_radius

end

/-- The feasibility test used inside the loop of `calculate_cell_radius`:
the `link_feasible` field of the link budget at the test radius. -/
noncomputable def link_feasible_at (tech_params : TechParams) (frequency hb hm : ℝ)
    (environment : String) (d : ℝ) : Except PyError Prop :=
  (link_budget_calculation tech_params frequency d hb hm environment).map
    (fun lb => lb.link_feasible)

/-- `calculate_cell_radius` from `src/app.py`: dichotomic search on
`[0.1, 50]` with tolerance `0.01`, returning the lower bracket. -/
noncomputable def calculate_cell_radius (tech_params : TechParams) (frequency : ℝ)
    (environment : String) (hb hm : ℝ) : Except PyError ℝ :=
  bisect (link_feasible_at tech_params frequency hb hm environment) 0.01 13 0.1 50

/-- The GSM branch computing `channels_per_cell` in
`calculate_advanced_dimensioning`: `min(8, max(1, int(traffic_demand / 10)))`. -/
noncomputable def gsm_channels_per_cell (traffic_demand : ℝ) : ℤ :=
  min 8 (max 1 (int_trunc (traffic_demand / 10)))

/-- The dict returned by `calculate_advanced_dimensioning` in `src/app.py`. -/
structure DimResult where
  technology : String
  frequency : ℝ
  environment : String
  max_radius : ℝ
  optimal_radius : ℝ
  cell_area : ℝ
  num_cells : ℤ
  cluster_size : ℕ
  reuse_distance : ℝ
  capacity_per_cell : ℝ
  total_capacity : ℝ
  channels_per_cell : ℝ
  cost_infrastructure : ℝ
  cost_equipment : ℝ
  total_cost : ℝ
  link_budget : LinkBudgetResult
  qos_score : ℝ

/-- `calculate_advanced_dimensioning` from `src/app.py`.  The technology
lookup raises a `KeyError` on an unknown key; the division
`surface_total / cell_area` raises a `ZeroDivisionError` when `cell_area`
is zero; errors from the propagation formulas propagate. -/
noncomputable def calculate_advanced_dimensioning (surface_total : ℝ)
    (technology : String) (frequency : ℝ) (environment : String)
    (traffic_demand qos_requirements hb hm : ℝ) : Except PyError DimResult :=
  match TELECOM_TECHNOLOGIES technology with
  | none => .error .keyError
  | some tech_params =>
    match calculate_cell_radius tech_params frequency environment hb hm with
    | .error e => .error e
    | .ok max_radius =>
      let traffic_factor := min 1 (traffic_demand / 100)
      let qos_factor := qos_requirements / 100
      let optimal_radius := max_radius * (1 - 0.3 * traffic_factor) * qos_factor
      let cell_area := 3 * Real.sqrt 3 / 2 * optimal_radius ^ 2
      if cell_area = 0 then .error .zeroDivisionError
      else
        let num_cells : ℤ := ⌈surface_total / cell_area⌉
        let capacity_per_cell : ℝ :=
          if technology = "GSM" then (gsm_channels_per_cell traffic_demand : ℝ) * 0.9
          else if technology = "UMTS" then ((min 64 (int_trunc (traffic_demand * 1.5)) : ℤ) : ℝ)
          else ((min 200 (int_trunc (traffic_demand * 2)) : ℤ) : ℝ)
        let total_capacity := (num_cells : ℝ) * capacity_per_cell
        let cost_infrastructure := (num_cells : ℝ) * tech_params.cost_per_bts
        let cost_equipment :=
          if technology = "GSM" then
            (num_cells : ℝ) * (gsm_channels_per_cell traffic_demand : ℝ) * tech_params.cost_per_channel
          else (num_cells : ℝ) * tech_params.cost_per_channel
        let total_cost := cost_infrastructure + cost_equipment
        match link_budget_calculation tech_params frequency optimal_radius hb hm environment with
        | .error e => .error e
        | .ok link_budget =>
          let cluster_size : ℕ :=
            if technology = "GSM" then (if qos_requirements > 80 then 7 else 4)
            else if technology = "UMTS" then 1 else 1
          let reuse_distance := optimal_radius * Real.sqrt (3 * (cluster_size : ℝ))
          Except.ok
            { technology := tech_params.name
              frequency := frequency
              environment := environment
              max_radius := max_radius
              optimal_radius := optimal_radius
              cell_area := cell_area
              num_cells := num_cells
              cluster_size := cluster_size
              reuse_distance := reuse_distance
              capacity_per_cell := capacity_per_cell
              total_capacity := total_capacity
              channels_per_cell :=
                if technology = "GSM" then (gsm_channels_per_cell traffic_demand : ℝ)
                else capacity_per_cell
              cost_infrastructure := cost_infrastructure
              cost_equipment := cost_equipment
              total_cost := total_cost
              link_budget := link_budget
              qos_score := min 100 (qos_requirements * (1 - traffic_factor * 0.3)) }

/-! ### Reduction lemmas for the `Except` monad -/

theorem ok_bind {α β : Type} (a : α) (f : α → Except PyError β) :
    (Except.ok a : Except PyError α) >>= f = f a := rfl

theorem error_bind {α β : Type} (e : PyError) (f : α → Except PyError β) :
    (Except.error e : Except PyError α) >>= f = .error e := rfl

theorem pure_eq_ok {α : Type} (a : α) : (pure a : Except PyError α) = .ok a := rfl

theorem ok_map {α β : Type} (a : α) (f : α → β) :
    (Except.ok a : Except PyError α).map f = .ok (f a) := rfl

/-! ### Value-level forms of the formulas, used to state what the code
computes when no domain error occurs -/

/-- Value of the mobile-antenna height correction `ahm`. -/
noncomputable def ahm_val (frequency hm : ℝ) : ℝ :=
  if 150 ≤ frequency ∧ frequency ≤ 1500 then
    (1.1 * log10 frequency - 0.7) * hm - (1.56 * log10 frequency - 0.8)
  else 3.2 * log10 (11.75 * hm) ^ 2 - 4.97

/-- Value of the Okumura-Hata path loss on positive arguments. -/
noncomputable def okumura_val (frequency distance hb hm : ℝ) (environment : String) : ℝ :=
  let path_loss := 69.55 + 26.16 * log10 frequency - 13.82 * log10 hb -
    ahm_val frequency hm + (44.9 - 6.55 * log10 hb) * log10 distance
  if environment = "suburban" then path_loss - 2 * log10 (frequency / 28) ^ 2 - 5.4
  else if environment = "rural" then
    path_loss - 4.78 * log10 frequency ^ 2 + 18.33 * log10 frequency - 40.94
  else path_loss

/-- Value of the free-space path loss on positive arguments. -/
noncomputable def fspl_val (frequency distance : ℝ) : ℝ :=
  32.45 + 20 * log10 frequency + 20 * log10 distance

/-- Path loss selected by `link_budget_calculation`. -/
noncomputable def path_loss_val (frequency distance hb hm : ℝ) (environment : String) : ℝ :=
  if environment = "free_space" then fspl_val frequency distance
  else okumura_val frequency distance hb hm environment

/-- Received power computed by `link_budget_calculation`. -/
noncomputable def received_power_val (tp : TechParams) (frequency distance hb hm : ℝ)
    (environment : String) : ℝ :=
  tp.tx_power_max + 18 + 0 - path_loss_val frequency distance hb hm environment -
    tp.fade_margin - tp.interference_margin - tp.body_loss

/-- Link margin computed by `link_budget_calculation`. -/
noncomputable def link_margin_val (tp : TechParams) (frequency distance hb hm : ℝ)
    (environment : String) : ℝ :=
  received_power_val tp frequency distance hb hm environment - tp.rx_sensitivity

/-- Feasibility verdict of the link budget at a given distance. -/
noncomputable def feasProp (tp : TechParams) (frequency distance hb hm : ℝ)
    (environment : String) : Prop :=
  link_margin_val tp frequency distance hb hm environment > 0

/-- The full link-budget record on positive arguments. -/
noncomputable def lbr_val (tp : TechParams) (frequency distance hb hm : ℝ)
    (environment : String) : LinkBudgetResult where
  tx_power := tp.tx_power_max
  rx_sensitivity := tp.rx_sensitivity
  path_loss := path_loss_val frequency distance hb hm environment
  fade_margin := tp.fade_margin
  interference_margin := tp.interference_margin
  body_loss := tp.body_loss
  tx_antenna_gain := 18
  rx_antenna_gain := 0
  received_power := received_power_val tp frequency distance hb hm environment
  link_margin := link_margin_val tp frequency distance hb hm environment
  link_feasible := feasProp tp frequency distance hb hm environment

/-! ### Bridging lemmas: on positive arguments the monadic code returns
`.ok` of the value-level formula -/

theorem math_log10_pos {x : ℝ} (hx : 0 < x) : math_log10 x = .ok (log10 x) :=
  if_pos hx

theorem math_log10_nonpos {x : ℝ} (hx : x ≤ 0) : math_log10 x = .error .domainError :=
  if_neg (not_lt.mpr hx)

theorem free_space_ok {frequency distance : ℝ} (hf : 0 < frequency) (hd : 0 < distance) :
    free_space_path_loss frequency distance = .ok (fspl_val frequency distance) := by
  simp only [free_space_path_loss, math_log10_pos hf, math_log10_pos hd, ok_bind, pure_eq_ok,
    fspl_val]

theorem okumura_ok {frequency distance hb hm : ℝ} (hf : 0 < frequency) (hd : 0 < distance)
    (hhb : 0 < hb) (hhm : 0 < hm) (environment : String) :
    okumura_hata_path_loss frequency distance hb hm environment =
      .ok (okumura_val frequency distance hb hm environment) := by
  have h4 : (0 : ℝ) < 11.75 * hm := by positivity
  have h5 : (0 : ℝ) < frequency / 28 := by positivity
  unfold okumura_hata_path_loss okumura_val ahm_val
  by_cases hband : 150 ≤ frequency ∧ frequency ≤ 1500 <;>
    by_cases hsub : environment = "suburban" <;>
      by_cases hrur : environment = "rural" <;>
        simp [hband, hsub, hrur, math_log10_pos hf, math_log10_pos hd, math_log10_pos hhb,
          math_log10_pos h4, math_log10_pos h5, ok_bind, pure_eq_ok]

/-- For an in-band frequency (`150 ≤ f ≤ 1500`) the mobile-antenna
correction is linear in `hm` and takes no logarithm of it, so the
Okumura-Hata computation succeeds for every `hm`, positive or not, as
long as frequency, distance and base height are positive. -/
theorem okumura_ok_inband {frequency distance hb : ℝ} (hm : ℝ) (hf : 0 < frequency)
    (hd : 0 < distance) (hhb : 0 < hb)
    (hband : 150 ≤ frequency ∧ frequency ≤ 1500) (environment : String) :
    okumura_hata_path_loss frequency distance hb hm environment =
      .ok (okumura_val frequency distance hb hm environment) := by
  have h5 : (0 : ℝ) < frequency / 28 := by positivity
  unfold okumura_hata_path_loss okumura_val ahm_val
  by_cases hsub : environment = "suburban" <;>
    by_cases hrur : environment = "rural" <;>
      simp [hband, hsub, hrur, math_log10_pos hf, math_log10_pos hd, math_log10_pos hhb,
        math_log10_pos h5, ok_bind, pure_eq_ok]

theorem link_budget_ok {tp : TechParams} {frequency distance hb hm : ℝ} {environment : String}
    (hf : 0 < frequency) (hd : 0 < distance) (hhb : 0 < hb) (hhm : 0 < hm) :
    link_budget_calculation tp frequency distance hb hm environment =
      .ok (lbr_val tp frequency distance hb hm environment) := by
  unfold link_budget_calculation lbr_val
  by_cases hfs : environment = "free_space" <;>
    simp [hfs, free_space_ok hf hd, okumura_ok hf hd hhb hhm, ok_bind, pure_eq_ok,
      received_power_val, link_margin_val, feasProp, path_loss_val]

theorem link_feasible_at_ok {tp : TechParams} {frequency hb hm : ℝ} {environment : String}
    {d : ℝ} (hf : 0 < frequency) (hd : 0 < d) (hhb : 0 < hb) (hhm : 0 < hm) :
    link_feasible_at tp frequency hb hm environment d =
      .ok (feasProp tp frequency d hb hm environment) := by
  rw [link_feasible_at, link_budget_ok hf hd hhb hhm, ok_map]
  rfl

/-! ### Numeric facts about `log10` -/

theorem log10_ten : log10 10 = 1 := Real.logb_self_eq_one (by norm_num)

theorem log10_thousand : log10 1000 = 3 := by
  have : (1000 : ℝ) = 10 ^ (3 : ℕ) := by norm_num
  rw [log10, this, Real.logb_pow, Real.logb_self_eq_one (by norm_num)]
  norm_num

theorem log10_hundred_million : log10 100000000 = 8 := by
  have : (100000000 : ℝ) = 10 ^ (8 : ℕ) := by norm_num
  rw [log10, this, Real.logb_pow, Real.logb_self_eq_one (by norm_num)]
  norm_num

theorem log10_tenth : log10 0.1 = -1 := by
  have : (0.1 : ℝ) = (10 : ℝ)⁻¹ := by norm_num
  rw [log10, this, Real.logb_inv, Real.logb_self_eq_one (by norm_num)]

theorem log10_one : log10 1 = 0 := Real.logb_one

theorem log10_mono {x y : ℝ} (hx : 0 < x) (hxy : x ≤ y) : log10 x ≤ log10 y :=
  Real.logb_le_logb_of_le (by norm_num) hx hxy

theorem one_le_log10_fifty : 1 ≤ log10 50 := by
  rw [log10, Real.le_logb_iff_rpow_le (by norm_num) (by norm_num)]
  rw [Real.rpow_one]
  norm_num

theorem log10_ge_neg_one {d : ℝ} (hd : 0.1 ≤ d) : -1 ≤ log10 d := by
  rw [← log10_tenth]
  exact log10_mono (by norm_num) hd

theorem log10_23_5_nonneg : 0 ≤ log10 23.5 := Real.logb_nonneg (by norm_num) (by norm_num)

theorem log10_23_5_le_two : log10 23.5 ≤ 2 := by
  rw [log10, Real.logb_le_iff_le_rpow (by norm_num) (by norm_num)]
  have : (10 : ℝ) ^ (2 : ℝ) = 100 := by
    rw [show (2 : ℝ) = ((2 : ℕ) : ℝ) by norm_num, Real.rpow_natCast]
    norm_num
  rw [this]
  norm_num

/-! ### The bisection loop at value level, and its properties -/

section
open Classical

/-- The loop of `calculate_cell_radius` expressed on the feasibility
predicate itself (no monad): used to name the value the loop returns when
the link budget never raises. -/
noncomputable def bisect_val (F : ℝ → Prop) (tolerance : ℝ) : ℕ → ℝ → ℝ → ℝ
  | 0, lo, _ => lo
  | n + 1, lo, hi =>
    if tolerance < hi - lo then
      if F ((lo + hi) / 2) then bisect_val F tolerance n ((lo + hi) / 2) hi
      else bisect_val F tolerance n lo ((lo + hi) / 2)
    else lo

end

theorem bisect_eq_val (F : ℝ → Except PyError Prop) (Fv : ℝ → Prop)
    (h : ∀ d, 0 < d → F d = .ok (Fv d)) (tolerance : ℝ) :
    ∀ (n : ℕ) (lo hi : ℝ), 0 < lo → lo ≤ hi →
      bisect F tolerance n lo hi = .ok (bisect_val Fv tolerance n lo hi) := by
  intro n
  induction n with
  | zero => intro lo hi _ _; rfl
  | succ n ih =>
    intro lo hi hlo hlh
    have hmidlo : lo ≤ (lo + hi) / 2 := by linarith
    have hmidhi : (lo + hi) / 2 ≤ hi := by linarith
    have hmid : 0 < (lo + hi) / 2 := lt_of_lt_of_le hlo hmidlo
    rw [bisect, bisect_val]
    by_cases hw : tolerance < hi - lo
    · rw [if_pos hw, if_pos hw, h _ hmid, ok_bind]
      by_cases hF : Fv ((lo + hi) / 2)
      · rw [if_pos hF, if_pos hF]
        exact ih _ hi hmid hmidhi
      · rw [if_neg hF, if_neg hF]
        exact ih lo _ hlo hmidlo
    · rw [if_neg hw, if_neg hw]

theorem bisect_val_bounds (F : ℝ → Prop) (tolerance : ℝ) :
    ∀ (n : ℕ) (lo hi : ℝ), lo ≤ hi →
      lo ≤ bisect_val F tolerance n lo hi ∧ bisect_val F tolerance n lo hi ≤ hi := by
  intro n
  induction n with
  | zero => intro lo hi hlh; rw [bisect_val]; exact ⟨le_refl lo, hlh⟩
  | succ n ih =>
    intro lo hi hlh
    have hmidlo : lo ≤ (lo + hi) / 2 := by linarith
    have hmidhi : (lo + hi) / 2 ≤ hi := by linarith
    rw [bisect_val]
    by_cases hw : tolerance < hi - lo
    · rw [if_pos hw]
      by_cases hF : F ((lo + hi) / 2)
      · rw [if_pos hF]
        obtain ⟨h1, h2⟩ := ih ((lo + hi) / 2) hi hmidhi
        exact ⟨le_trans hmidlo h1, h2⟩
      · rw [if_neg hF]
        obtain ⟨h1, h2⟩ := ih lo ((lo + hi) / 2) hmidlo
        exact ⟨h1, le_trans h2 hmidhi⟩
    · rw [if_neg hw]
      exact ⟨le_refl lo, hlh⟩

theorem bisect_ok_bounds (F : ℝ → Except PyError Prop) (tolerance : ℝ) :
    ∀ (n : ℕ) (lo hi v : ℝ), lo ≤ hi →
      bisect F tolerance n lo hi = .ok v → lo ≤ v ∧ v ≤ hi := by
  intro n
  induction n with
  | zero =>
    intro lo hi v hlh hv
    rw [bisect] at hv
    cases hv
    exact ⟨le_refl lo, hlh⟩
  | succ n ih =>
    intro lo hi v hlh hv
    have hmidlo : lo ≤ (lo + hi) / 2 := by linarith
    have hmidhi : (lo + hi) / 2 ≤ hi := by linarith
    rw [bisect] at hv
    by_cases hw : tolerance < hi - lo
    · rw [if_pos hw] at hv
      cases hFm : F ((lo + hi) / 2) with
      | error e => rw [hFm, error_bind] at hv; cases hv
      | ok p =>
        rw [hFm, ok_bind] at hv
        by_cases hp : p
        · rw [if_pos hp] at hv
          obtain ⟨h1, h2⟩ := ih _ hi v hmidhi hv
          exact ⟨le_trans hmidlo h1, h2⟩
        · rw [if_neg hp] at hv
          obtain ⟨h1, h2⟩ := ih lo _ v hmidlo hv
          exact ⟨h1, le_trans h2 hmidhi⟩
    · rw [if_neg hw] at hv
      cases hv
      exact ⟨le_refl lo, hlh⟩

/-- The while loop needs at most `n` iterations once the bracket width is
at most `tolerance * 2^n`: any larger iteration budget yields the same
outcome.  With the initial bracket `(0.1, 50)` and tolerance `0.01` this
holds for `n = 13` since `49.9 ≤ 0.01 * 2^13 = 81.92`. -/
theorem bisect_fuel_stable (F : ℝ → Except PyError Prop) (tolerance : ℝ) :
    ∀ (n m : ℕ) (lo hi : ℝ), hi - lo ≤ tolerance * 2 ^ n → n ≤ m →
      bisect F tolerance m lo hi = bisect F tolerance n lo hi := by
  intro n
  induction n with
  | zero =>
    intro m lo hi hwidth _
    rw [pow_zero, mul_one] at hwidth
    cases m with
    | zero => rfl
    | succ m => rw [bisect, bisect, if_neg (not_lt.mpr hwidth)]
  | succ n ih =>
    intro m lo hi hwidth hnm
    obtain ⟨m, rfl⟩ : ∃ m', m = m' + 1 := ⟨m - 1, (Nat.succ_pred_eq_of_pos (by omega)).symm⟩
    rw [bisect, bisect]
    by_cases hw : tolerance < hi - lo
    · rw [if_pos hw, if_pos hw]
      have hpow : (2 : ℝ) ^ (n + 1) = 2 ^ n * 2 := pow_succ 2 n
      have hhalf1 : hi - (lo + hi) / 2 ≤ tolerance * 2 ^ n := by
        rw [hpow] at hwidth; linarith
      have hhalf2 : (lo + hi) / 2 - lo ≤ tolerance * 2 ^ n := by
        rw [hpow] at hwidth; linarith
      cases hFm : F ((lo + hi) / 2) with
      | error e => rw [error_bind, error_bind]
      | ok p =>
        rw [ok_bind, ok_bind]
        by_cases hp : p
        · rw [if_pos hp, if_pos hp]
          exact ih m _ hi hhalf1 (by omega)
        · rw [if_neg hp, if_neg hp]
          exact ih m lo _ hhalf2 (by omega)
    · rw [if_neg hw, if_neg hw]

/-- Bracket invariant of the bisection: starting from a feasible lower
end and an infeasible upper end, the loop returns a feasible value, and
some infeasible point lies within `max tolerance (width / 2^n)` above it. -/
theorem bisect_val_spec (F : ℝ → Prop) (tolerance : ℝ) :
    ∀ (n : ℕ) (lo hi : ℝ), F lo → ¬ F hi → lo ≤ hi →
      lo ≤ bisect_val F tolerance n lo hi ∧ F (bisect_val F tolerance n lo hi) ∧
        ∃ hi', ¬ F hi' ∧ bisect_val F tolerance n lo hi ≤ hi' ∧
          hi' - bisect_val F tolerance n lo hi ≤ max tolerance ((hi - lo) / 2 ^ n) := by
  intro n
  induction n with
  | zero =>
    intro lo hi hFlo hFhi hlh
    rw [bisect_val]
    refine ⟨le_refl lo, hFlo, hi, hFhi, hlh, ?_⟩
    rw [pow_zero]
    exact le_trans (by linarith) (le_max_right _ _)
  | succ n ih =>
    intro lo hi hFlo hFhi hlh
    have hmidlo : lo ≤ (lo + hi) / 2 := by linarith
    have hmidhi : (lo + hi) / 2 ≤ hi := by linarith
    have hpow : (2 : ℝ) ^ (n + 1) = 2 ^ n * 2 := pow_succ 2 n
    have hpowpos : (0 : ℝ) < 2 ^ n := by positivity
    rw [bisect_val]
    by_cases hw : tolerance < hi - lo
    · rw [if_pos hw]
      by_cases hF : F ((lo + hi) / 2)
      · rw [if_pos hF]
        obtain ⟨h1, h2, hi', h3, h4, h5⟩ := ih ((lo + hi) / 2) hi hF hFhi hmidhi
        refine ⟨le_trans hmidlo h1, h2, hi', h3, h4, le_trans h5 ?_⟩
        have : (hi - (lo + hi) / 2) / 2 ^ n = (hi - lo) / 2 ^ (n + 1) := by
          rw [hpow]; field_simp; ring
        rw [this]
      · rw [if_neg hF]
        obtain ⟨h1, h2, hi', h3, h4, h5⟩ := ih lo ((lo + hi) / 2) hFlo hF hmidlo
        refine ⟨h1, h2, hi', h3, h4, le_trans h5 ?_⟩
        have : ((lo + hi) / 2 - lo) / 2 ^ n = (hi - lo) / 2 ^ (n + 1) := by
          rw [hpow]; field_simp; ring
        rw [this]
    · rw [if_neg hw]
      exact ⟨le_refl lo, hFlo, hi, hFhi, hlh, le_trans (by linarith [not_lt.mp hw])
        (le_max_left _ _)⟩

/-- When no point at or above the lower end is feasible, the loop never
moves the lower end: it returns the initial `lo` without ever confirming
it feasible. -/
theorem bisect_val_infeasible (F : ℝ → Prop) (tolerance : ℝ) (lo : ℝ)
    (h : ∀ d, lo ≤ d → ¬ F d) :
    ∀ (n : ℕ) (hi : ℝ), lo ≤ hi → bisect_val F tolerance n lo hi = lo := by
  intro n
  induction n with
  | zero => intro hi _; rw [bisect_val]
  | succ n ih =>
    intro hi hlh
    have hmidlo : lo ≤ (lo + hi) / 2 := by linarith
    rw [bisect_val]
    by_cases hw : tolerance < hi - lo
    · rw [if_pos hw, if_neg (h _ hmidlo)]
      exact ih _ hmidlo
    · rw [if_neg hw]

/-- The value returned by `calculate_cell_radius` when the link budget
never raises a domain error (positive frequency and antenna heights). -/
noncomputable def radius_value (tp : TechParams) (frequency : ℝ) (environment : String)
    (hb hm : ℝ) : ℝ :=
  bisect_val (fun d => feasProp tp frequency d hb hm environment) 0.01 13 0.1 50

theorem calculate_cell_radius_ok {tp : TechParams} {frequency hb hm : ℝ}
    {environment : String} (hf : 0 < frequency) (hhb : 0 < hb) (hhm : 0 < hm) :
    calculate_cell_radius tp frequency environment hb hm =
      .ok (radius_value tp frequency environment hb hm) :=
  bisect_eq_val _ _ (fun _ hd => link_feasible_at_ok hf hd hhb hhm) 0.01 13 0.1 50
    (by norm_num) (by norm_num)

theorem radius_value_bounds (tp : TechParams) (frequency : ℝ) (environment : String)
    (hb hm : ℝ) : 0.1 ≤ radius_value tp frequency environment hb hm ∧
      radius_value tp frequency environment hb hm ≤ 50 :=
  bisect_val_bounds _ 0.01 13 0.1 50 (by norm_num)

/-! ### The dimensioning result at value level -/

/-- The record `calculate_advanced_dimensioning` returns when the lookup
succeeds, no domain error occurs and `cell_area` is nonzero. -/
noncomputable def dimension_value (tech_params : TechParams) (surface_total : ℝ)
    (technology : String) (frequency : ℝ) (environment : String)
    (traffic_demand qos_requirements hb hm : ℝ) : DimResult :=
  let max_radius := radius_value tech_params frequency environment hb hm
  let traffic_factor := min 1 (traffic_demand / 100)
  let qos_factor := qos_requirements / 100
  let optimal_radius := max_radius * (1 - 0.3 * traffic_factor) * qos_factor
  let cell_area := 3 * Real.sqrt 3 / 2 * optimal_radius ^ 2
  let num_cells : ℤ := ⌈surface_total / cell_area⌉
  let capacity_per_cell : ℝ :=
    if technology = "GSM" then (gsm_channels_per_cell traffic_demand : ℝ) * 0.9
    else if technology = "UMTS" then ((min 64 (int_trunc (traffic_demand * 1.5)) : ℤ) : ℝ)
    else ((min 200 (int_trunc (traffic_demand * 2)) : ℤ) : ℝ)
  let cost_infrastructure := (num_cells : ℝ) * tech_params.cost_per_bts
  let cost_equipment :=
    if technology = "GSM" then
      (num_cells : ℝ) * (gsm_channels_per_cell traffic_demand : ℝ) * tech_params.cost_per_channel
    else (num_cells : ℝ) * tech_params.cost_per_channel
  let cluster_size : ℕ :=
    if technology = "GSM" then (if qos_requirements > 80 then 7 else 4)
    else if technology = "UMTS" then 1 else 1
  { technology := tech_params.name
    frequency := frequency
    environment := environment
    max_radius := max_radius
    optimal_radius := optimal_radius
    cell_area := cell_area
    num_cells := num_cells
    cluster_size := cluster_size
    reuse_distance := optimal_radius * Real.sqrt (3 * (cluster_size : ℝ))
    capacity_per_cell := capacity_per_cell
    total_capacity := (num_cells : ℝ) * capacity_per_cell
    channels_per_cell :=
      if technology = "GSM" then (gsm_channels_per_cell traffic_demand : ℝ)
      else capacity_per_cell
    cost_infrastructure := cost_infrastructure
    cost_equipment := cost_equipment
    total_cost := cost_infrastructure + cost_equipment
    link_budget := lbr_val tech_params frequency optimal_radius hb hm environment
    qos_score := min 100 (qos_requirements * (1 - traffic_factor * 0.3)) }

theorem traffic_factor_lt_one (traffic_demand : ℝ) :
    0.3 * min 1 (traffic_demand / 100) < 1 := by
  have h := min_le_left 1 (traffic_demand / 100)
  have h2 : (0 : ℝ) ≤ min 1 (traffic_demand / 100) ∨ min 1 (traffic_demand / 100) < 0 :=
    le_or_lt 0 _
  rcases h2 with h2 | h2
  · nlinarith
  · nlinarith

theorem calc_ok {technology : String} {tp : TechParams}
    {surface_total frequency traffic_demand qos_requirements hb hm : ℝ}
    {environment : String}
    (htech : TELECOM_TECHNOLOGIES technology = some tp)
    (hf : 0 < frequency) (hhb : 0 < hb) (hhm : 0 < hm) (hq : 0 < qos_requirements) :
    calculate_advanced_dimensioning surface_total technology frequency environment
      traffic_demand qos_requirements hb hm =
      .ok (dimension_value tp surface_total technology frequency environment
        traffic_demand qos_requirements hb hm) := by
  have hrad := @calculate_cell_radius_ok tp frequency hb hm environment hf hhb hhm
  have hbounds := radius_value_bounds tp frequency environment hb hm
  have hRpos : 0 < radius_value tp frequency environment hb hm :=
    lt_of_lt_of_le (by norm_num) hbounds.1
  have hfac : (0 : ℝ) < 1 - 0.3 * min 1 (traffic_demand / 100) := by
    have := traffic_factor_lt_one traffic_demand
    linarith
  have hqf : (0 : ℝ) < qos_requirements / 100 := by linarith
  have hopt : 0 < radius_value tp frequency environment hb hm *
      (1 - 0.3 * min 1 (traffic_demand / 100)) * (qos_requirements / 100) :=
    mul_pos (mul_pos hRpos hfac) hqf
  have harea : 3 * Real.sqrt 3 / 2 * (radius_value tp frequency environment hb hm *
      (1 - 0.3 * min 1 (traffic_demand / 100)) * (qos_requirements / 100)) ^ 2 ≠ 0 := by
    have h3 : (0 : ℝ) < Real.sqrt 3 := Real.sqrt_pos.mpr (by norm_num)
    positivity
  have hlb := @link_budget_ok tp frequency
    (radius_value tp frequency environment hb hm *
      (1 - 0.3 * min 1 (traffic_demand / 100)) * (qos_requirements / 100))
    hb hm environment hf hopt hhb hhm
  unfold calculate_advanced_dimensioning dimension_value
  rw [htech]
  dsimp only []
  rw [hrad]
  dsimp only []
  rw [if_neg harea, hlb]

/-- Inversion: what must have happened, and what the result's fields are,
whenever `calculate_advanced_dimensioning` returns a result. -/
theorem calc_ok_inv {surface_total frequency traffic_demand qos_requirements hb hm : ℝ}
    {technology environment : String} {r : DimResult}
    (h : calculate_advanced_dimensioning surface_total technology frequency environment
      traffic_demand qos_requirements hb hm = .ok r) :
    ∃ tp R, TELECOM_TECHNOLOGIES technology = some tp ∧
      calculate_cell_radius tp frequency environment hb hm = .ok R ∧
      r.max_radius = R ∧
      r.optimal_radius = r.max_radius * (1 - 0.3 * min 1 (traffic_demand / 100)) *
        (qos_requirements / 100) ∧
      r.cell_area = 3 * Real.sqrt 3 / 2 * r.optimal_radius ^ 2 ∧
      r.cell_area ≠ 0 ∧
      r.num_cells = ⌈surface_total / r.cell_area⌉ ∧
      r.channels_per_cell = (if technology = "GSM" then
        ((gsm_channels_per_cell traffic_demand : ℤ) : ℝ) else r.capacity_per_cell) ∧
      r.capacity_per_cell = (if technology = "GSM" then
          (gsm_channels_per_cell traffic_demand : ℝ) * 0.9
        else if technology = "UMTS" then
          ((min 64 (int_trunc (traffic_demand * 1.5)) : ℤ) : ℝ)
        else ((min 200 (int_trunc (traffic_demand * 2)) : ℤ) : ℝ)) := by
  unfold calculate_advanced_dimensioning at h
  cases hT : TELECOM_TECHNOLOGIES technology with
  | none => rw [hT] at h; exact Except.noConfusion h
  | some tp =>
    rw [hT] at h
    dsimp only [] at h
    cases hR : calculate_cell_radius tp frequency environment hb hm with
    | error e => rw [hR] at h; exact Except.noConfusion h
    | ok R =>
      rw [hR] at h
      dsimp only [] at h
      by_cases hA : 3 * Real.sqrt 3 / 2 * (R * (1 - 0.3 * min 1 (traffic_demand / 100)) *
          (qos_requirements / 100)) ^ 2 = 0
      · rw [if_pos hA] at h; exact Except.noConfusion h
      · rw [if_neg hA] at h
        cases hLB : link_budget_calculation tp frequency
            (R * (1 - 0.3 * min 1 (traffic_demand / 100)) * (qos_requirements / 100)) hb hm
            environment with
        | error e => rw [hLB] at h; exact Except.noConfusion h
        | ok lb =>
          rw [hLB] at h
          dsimp only [] at h
          injection h with h
          subst h
          exact ⟨tp, R, rfl, hR, rfl, rfl, rfl, hA, rfl, rfl, rfl⟩

/-! ### Claim theorems -/

/-- C3: for every profile, frequency, distance, antenna heights and
environment, the link-budget computation returns a result in which
`received_power = tx_power + 18 + 0 − path_loss − fade_margin −
interference_margin − body_loss`, `link_margin = received_power −
rx_sensitivity` exactly, the feasibility flag holds iff
`link_margin > 0`, and the path loss comes from the free-space formula
exactly when `environment = "free_space"` and from Okumura-Hata
otherwise. -/
theorem claim_C3_link_budget (tp : TechParams) (frequency distance hb hm : ℝ)
    (environment : String) (r : LinkBudgetResult)
    (h : link_budget_calculation tp frequency distance hb hm environment = .ok r) :
    r.received_power = tp.tx_power_max + 18 + 0 - r.path_loss - tp.fade_margin -
      tp.interference_margin - tp.body_loss ∧
    r.link_margin = r.received_power - tp.rx_sensitivity ∧
    (r.link_feasible ↔ r.link_margin > 0) ∧
    (environment = "free_space" →
      free_space_path_loss frequency distance = .ok r.path_loss) ∧
    (environment ≠ "free_space" →
      okumura_hata_path_loss frequency distance hb hm environment = .ok r.path_loss) := by
  unfold link_budget_calculation at h
  by_cases hfs : environment = "free_space"
  · rw [if_pos hfs] at h
    cases hPL : free_space_path_loss frequency distance with
    | error e => rw [hPL, error_bind] at h; exact Except.noConfusion h
    | ok pl =>
      rw [hPL, ok_bind] at h
      dsimp only [] at h
      rw [pure_eq_ok] at h
      injection h with h
      subst h
      exact ⟨rfl, rfl, Iff.rfl, fun _ => rfl, fun hc => absurd hfs hc⟩
  · rw [if_neg hfs] at h
    cases hPL : okumura_hata_path_loss frequency distance hb hm environment with
    | error e => rw [hPL, error_bind] at h; exact Except.noConfusion h
    | ok pl =>
      rw [hPL, ok_bind] at h
      dsimp only [] at h
      rw [pure_eq_ok] at h
      injection h with h
      subst h
      exact ⟨rfl, rfl, Iff.rfl, fun hc => absurd hc hfs, fun _ => rfl⟩

/-- C4: for positive arguments the Okumura-Hata function returns the base
urban formula with the mobile-antenna correction chosen by the band test
`150 ≤ f ≤ 1500`; the suburban result is the urban value minus
`2·(log10(f/28))² + 5.4`, the rural result is the urban value minus
`4.78·(log10 f)² − 18.33·log10 f + 40.94`, and the urban value has no
correction. -/
theorem claim_C4_okumura (frequency distance hb hm U : ℝ) (hf : 0 < frequency)
    (hd : 0 < distance) (hhb : 0 < hb) (hhm : 0 < hm)
    (hU : U = 69.55 + 26.16 * log10 frequency - 13.82 * log10 hb -
      (if 150 ≤ frequency ∧ frequency ≤ 1500 then
        (1.1 * log10 frequency - 0.7) * hm - (1.56 * log10 frequency - 0.8)
       else 3.2 * log10 (11.75 * hm) ^ 2 - 4.97) +
      (44.9 - 6.55 * log10 hb) * log10 distance) :
    okumura_hata_path_loss frequency distance hb hm "urban" = .ok U ∧
    okumura_hata_path_loss frequency distance hb hm "suburban" =
      .ok (U - (2 * log10 (frequency / 28) ^ 2 + 5.4)) ∧
    okumura_hata_path_loss frequency distance hb hm "rural" =
      .ok (U - (4.78 * log10 frequency ^ 2 - 18.33 * log10 frequency + 40.94)) := by
  subst hU
  refine ⟨?_, ?_, ?_⟩ <;>
    rw [okumura_ok hf hd hhb hhm] <;>
      simp only [Except.ok.injEq, okumura_val, ahm_val] <;>
        by_cases hband : 150 ≤ frequency ∧ frequency ≤ 1500 <;>
          simp only [hband, if_true, if_false, String.reduceEq, ite_true, ite_false,
            reduceIte] <;>
            ring

/-- C7: an unknown technology key makes the dimensioning computation fail
with the lookup error (never a silently substituted default), and each of
the three known keys is found in the registry. -/
theorem claim_C7_lookup (surface_total frequency traffic_demand qos_requirements hb hm : ℝ)
    (technology environment : String) :
    (¬ (technology = "GSM" ∨ technology = "UMTS" ∨ technology = "LTE") →
      calculate_advanced_dimensioning surface_total technology frequency environment
        traffic_demand qos_requirements hb hm = .error .keyError) ∧
    (technology = "GSM" ∨ technology = "UMTS" ∨ technology = "LTE" →
      ∃ tp, TELECOM_TECHNOLOGIES technology = some tp) := by
  constructor
  · intro hni
    push_neg at hni
    obtain ⟨h1, h2, h3⟩ := hni
    have hnone : TELECOM_TECHNOLOGIES technology = none := by
      unfold TELECOM_TECHNOLOGIES
      rw [if_neg h1, if_neg h2, if_neg h3]
    unfold calculate_advanced_dimensioning
    rw [hnone]
  · rintro (h | h | h) <;> subst h
    · exact ⟨gsmParams, by simp [TELECOM_TECHNOLOGIES]⟩
    · exact ⟨umtsParams, by simp [TELECOM_TECHNOLOGIES]⟩
    · exact ⟨lteParams, by simp [TELECOM_TECHNOLOGIES]⟩

/-- C8 (amended): a non-positive frequency or distance makes the
free-space formula raise the domain error; for Okumura-Hata a
non-positive frequency, distance or base-antenna height always raises it,
and a non-positive mobile height raises it exactly when the frequency
lies outside `[150, 1500]` — for every in-band frequency with positive
frequency, distance and base height the computation returns a value, for
every `hm`, positive or not; strictly positive arguments never raise. -/
theorem claim_C8_domain (frequency distance hb hm : ℝ) (environment : String) :
    (frequency ≤ 0 ∨ distance ≤ 0 →
      free_space_path_loss frequency distance = .error .domainError) ∧
    (0 < frequency → 0 < distance →
      free_space_path_loss frequency distance = .ok (fspl_val frequency distance)) ∧
    (frequency ≤ 0 ∨ distance ≤ 0 ∨ hb ≤ 0 →
      okumura_hata_path_loss frequency distance hb hm environment = .error .domainError) ∧
    (hm ≤ 0 → ¬ (150 ≤ frequency ∧ frequency ≤ 1500) →
      okumura_hata_path_loss frequency distance hb hm environment = .error .domainError) ∧
    (0 < frequency → 0 < distance → 0 < hb → 150 ≤ frequency ∧ frequency ≤ 1500 →
      okumura_hata_path_loss frequency distance hb hm environment =
        .ok (okumura_val frequency distance hb hm environment)) ∧
    (0 < frequency → 0 < distance → 0 < hb → 0 < hm →
      okumura_hata_path_loss frequency distance hb hm environment =
        .ok (okumura_val frequency distance hb hm environment)) := by
  refine ⟨?_, fun hf hd => free_space_ok hf hd, ?_, ?_,
    fun hf hd hhb hband => okumura_ok_inband hm hf hd hhb hband environment,
    fun hf hd hhb hhm => okumura_ok hf hd hhb hhm environment⟩
  · intro h
    unfold free_space_path_loss
    rcases h with h | h
    · rw [math_log10_nonpos h, error_bind]
    · by_cases hf : 0 < frequency
      · rw [math_log10_pos hf, ok_bind, math_log10_nonpos h, error_bind]
      · rw [math_log10_nonpos (not_lt.mp hf), error_bind]
  · intro h
    unfold okumura_hata_path_loss
    by_cases hband : 150 ≤ frequency ∧ frequency ≤ 1500
    · have hf : 0 < frequency := lt_of_lt_of_le (by norm_num) hband.1
      rw [if_pos hband]
      simp only [math_log10_pos hf, ok_bind]
      rcases h with h | h | h
      · linarith
      · by_cases hhb : 0 < hb
        · simp only [math_log10_pos hhb, ok_bind, math_log10_nonpos h, error_bind]
        · simp only [math_log10_nonpos (not_lt.mp hhb), error_bind]
      · simp only [math_log10_nonpos h, error_bind]
    · rw [if_neg hband]
      by_cases hhm : 0 < hm
      · have hpos : (0 : ℝ) < 11.75 * hm := by positivity
        simp only [math_log10_pos hpos, ok_bind]
        rcases h with h | h | h
        · simp only [math_log10_nonpos h, error_bind]
        · by_cases hf : 0 < frequency
          · by_cases hhb : 0 < hb
            · simp only [math_log10_pos hf, ok_bind, math_log10_pos hhb,
                math_log10_nonpos h, error_bind]
            · simp only [math_log10_pos hf, ok_bind,
                math_log10_nonpos (not_lt.mp hhb), error_bind]
          · simp only [math_log10_nonpos (not_lt.mp hf), error_bind]
        · by_cases hf : 0 < frequency
          · simp only [math_log10_pos hf, ok_bind, math_log10_nonpos h, error_bind]
          · simp only [math_log10_nonpos (not_lt.mp hf), error_bind]
      · have hneg : 11.75 * hm ≤ 0 := by nlinarith [not_lt.mp hhm]
        simp only [math_log10_nonpos hneg, error_bind]
  · intro hhm hband
    unfold okumura_hata_path_loss
    rw [if_neg hband]
    have hneg : 11.75 * hm ≤ 0 := by nlinarith
    simp only [math_log10_nonpos hneg, error_bind]

/-- C8 counterexample: with the in-band frequency 1000 MHz and the
non-positive mobile antenna height −1 m, `okumura_hata_path_loss`
returns a plain value (no domain error is signalled), refuting the claim
that every non-positive antenna height takes the error branch. -/
theorem claim_C8_cex :
    okumura_hata_path_loss 1000 1 10 (-1) "urban" = .ok 140.69 ∧ (-1 : ℝ) ≤ 0 := by
  refine ⟨?_, by norm_num⟩
  rw [show okumura_hata_path_loss 1000 1 10 (-1) "urban" =
    .ok (okumura_val 1000 1 10 (-1) "urban") from ?_]
  · simp only [Except.ok.injEq, okumura_val, ahm_val]
    rw [if_pos (by norm_num : (150 : ℝ) ≤ 1000 ∧ (1000 : ℝ) ≤ 1500)]
    simp only [String.reduceEq, ite_false, reduceIte]
    rw [log10_thousand, log10_ten, log10_one]
    norm_num
  · unfold okumura_hata_path_loss
    rw [if_pos (by norm_num : (150 : ℝ) ≤ 1000 ∧ (1000 : ℝ) ≤ 1500)]
    simp only [math_log10_pos (by norm_num : (0:ℝ) < 1000),
      math_log10_pos (by norm_num : (0:ℝ) < 10),
      math_log10_pos (by norm_num : (0:ℝ) < 1), ok_bind]
    simp only [String.reduceEq, ite_false, reduceIte, pure_eq_ok]
    simp only [okumura_val, ahm_val]
    rw [if_pos (by norm_num : (150 : ℝ) ≤ 1000 ∧ (1000 : ℝ) ≤ 1500)]
    simp only [String.reduceEq, ite_false, reduceIte]

/-- C9: the loop of `calculate_cell_radius` terminates: any iteration
budget of at least 13 yields the result of `calculate_cell_radius` from
the bracket `(0.1, 50)` with tolerance `0.01`, and one pass of the loop
body replaces the bracket by one of exactly half the width, whichever way
the feasibility test decides. -/
theorem claim_C9_termination (tp : TechParams) (frequency hb hm : ℝ) (environment : String)
    (n : ℕ) (lo hi : ℝ) (m : ℕ) (p : Prop) (hn : 13 ≤ n)
    (hwide : (0.01 : ℝ) < hi - lo)
    (hok : link_feasible_at tp frequency hb hm environment ((lo + hi) / 2) = .ok p) :
    bisect (link_feasible_at tp frequency hb hm environment) 0.01 n 0.1 50 =
      calculate_cell_radius tp frequency environment hb hm ∧
    ∃ lo' hi', hi' - lo' = (hi - lo) / 2 ∧
      bisect (link_feasible_at tp frequency hb hm environment) 0.01 (m + 1) lo hi =
        bisect (link_feasible_at tp frequency hb hm environment) 0.01 m lo' hi' := by
  constructor
  · rw [calculate_cell_radius]
    exact bisect_fuel_stable _ 0.01 13 n 0.1 50 (by norm_num) hn
  · rw [bisect, if_pos hwide, hok, ok_bind]
    by_cases hp : p
    · exact ⟨(lo + hi) / 2, hi, by ring, by rw [if_pos hp]⟩
    · exact ⟨lo, (lo + hi) / 2, by ring, by rw [if_neg hp]⟩

/-- C10: with a QoS requirement of exactly 0 (and otherwise valid inputs:
a known technology, positive frequency and antenna heights, positive
surface), the optimal radius collapses to 0, the cell area is exactly 0,
and the pipeline fails with the division error instead of returning a
degenerate result. -/
theorem claim_C10_qos_zero (surface_total frequency traffic_demand hb hm : ℝ)
    (technology environment : String) (tp : TechParams)
    (htech : TELECOM_TECHNOLOGIES technology = some tp)
    (hs : 0 < surface_total) (hf : 0 < frequency) (hhb : 0 < hb) (hhm : 0 < hm) :
    calculate_advanced_dimensioning surface_total technology frequency environment
      traffic_demand 0 hb hm = .error .zeroDivisionError := by
  have hrad := @calculate_cell_radius_ok tp frequency hb hm environment hf hhb hhm
  have hzero : 3 * Real.sqrt 3 / 2 * (radius_value tp frequency environment hb hm *
      (1 - 0.3 * min 1 (traffic_demand / 100)) * ((0 : ℝ) / 100)) ^ 2 = 0 := by
    norm_num
  unfold calculate_advanced_dimensioning
  rw [htech]
  dsimp only []
  rw [hrad]
  dsimp only []
  rw [if_pos hzero]

/-- C5: whenever the dimensioning computation produces a result on a valid
input, `cell_area = (3·√3/2)·optimal_radius²`,
`cell_count = ceil(surface_total / cell_area)`, and the cells cover the
whole surface: `cell_count · cell_area ≥ surface_total`. -/
theorem claim_C5_covering (surface_total frequency traffic_demand qos_requirements hb hm : ℝ)
    (technology environment : String) (r : DimResult)
    (hs : 0 < surface_total) (htd0 : 0 ≤ traffic_demand) (htd1 : traffic_demand ≤ 100)
    (hq0 : 0 ≤ qos_requirements) (hq1 : qos_requirements ≤ 100)
    (h : calculate_advanced_dimensioning surface_total technology frequency environment
      traffic_demand qos_requirements hb hm = .ok r) :
    r.cell_area = 3 * Real.sqrt 3 / 2 * r.optimal_radius ^ 2 ∧
    r.num_cells = ⌈surface_total / r.cell_area⌉ ∧
    surface_total ≤ (r.num_cells : ℝ) * r.cell_area := by
  obtain ⟨tp, R, -, -, -, -, harea, hne, hnum, -, -⟩ := calc_ok_inv h
  refine ⟨harea, hnum, ?_⟩
  have hnonneg : 0 ≤ r.cell_area := by
    rw [harea]
    positivity
  have hpos : 0 < r.cell_area := lt_of_le_of_ne hnonneg (Ne.symm hne)
  rw [hnum]
  have h1 : surface_total / r.cell_area ≤ (⌈surface_total / r.cell_area⌉ : ℝ) :=
    Int.le_ceil _
  have h2 := mul_le_mul_of_nonneg_right h1 (le_of_lt hpos)
  rwa [div_mul_cancel₀ _ (ne_of_gt hpos)] at h2

/-- C6: every produced dimensioning result satisfies
`optimal_radius = max_radius · (1 − 0.3·min(1, traffic_demand/100)) ·
(qos_requirements/100)` and hence `optimal_radius ≤ max_radius`. -/
theorem claim_C6_optimal_radius (surface_total frequency traffic_demand qos_requirements
    hb hm : ℝ) (technology environment : String) (r : DimResult)
    (htd : 0 ≤ traffic_demand) (hq0 : 0 ≤ qos_requirements) (hq1 : qos_requirements ≤ 100)
    (h : calculate_advanced_dimensioning surface_total technology frequency environment
      traffic_demand qos_requirements hb hm = .ok r) :
    r.optimal_radius = r.max_radius * (1 - 0.3 * min 1 (traffic_demand / 100)) *
      (qos_requirements / 100) ∧
    r.optimal_radius ≤ r.max_radius := by
  obtain ⟨tp, R, -, hR, hmax, hopt, -, -, -, -, -⟩ := calc_ok_inv h
  refine ⟨hopt, ?_⟩
  rw [calculate_cell_radius] at hR
  have hb2 := bisect_ok_bounds _ 0.01 13 0.1 50 R (by norm_num) hR
  have hRpos : 0 ≤ r.max_radius := by
    rw [hmax]
    linarith [hb2.1]
  have htf0 : 0 ≤ min 1 (traffic_demand / 100) := le_min (by norm_num) (by positivity)
  have htf1 : min 1 (traffic_demand / 100) ≤ 1 := min_le_left _ _
  have hqf0 : 0 ≤ qos_requirements / 100 := by positivity
  have hqf1 : qos_requirements / 100 ≤ 1 := by linarith
  have hfactors : (1 - 0.3 * min 1 (traffic_demand / 100)) * (qos_requirements / 100) ≤ 1 := by
    nlinarith
  rw [hopt]
  calc r.max_radius * (1 - 0.3 * min 1 (traffic_demand / 100)) * (qos_requirements / 100)
      = r.max_radius *
        ((1 - 0.3 * min 1 (traffic_demand / 100)) * (qos_requirements / 100)) := by ring
    _ ≤ r.max_radius * 1 := mul_le_mul_of_nonneg_left hfactors hRpos
    _ = r.max_radius := mul_one _

/-- C1 (amended): for traffic demands in `[0, 100]` the GSM branch sets
`channels_per_cell = clamp(⌊traffic_demand/10⌋, 1, 8)` — Python `int()`
truncation, not nearest-integer rounding — and
`capacity_per_cell = channels_per_cell · 0.9`. -/
theorem claim_C1_gsm_capacity (surface_total frequency traffic_demand qos_requirements
    hb hm : ℝ) (environment : String) (r : DimResult)
    (htd0 : 0 ≤ traffic_demand) (htd1 : traffic_demand ≤ 100)
    (h : calculate_advanced_dimensioning surface_total "GSM" frequency environment
      traffic_demand qos_requirements hb hm = .ok r) :
    r.channels_per_cell = ((min 8 (max 1 ⌊traffic_demand / 10⌋) : ℤ) : ℝ) ∧
    r.capacity_per_cell = r.channels_per_cell * 0.9 := by
  obtain ⟨tp, R, -, -, -, -, -, -, -, hch, hcap⟩ := calc_ok_inv h
  rw [if_pos rfl] at hch hcap
  have htr : int_trunc (traffic_demand / 10) = ⌊traffic_demand / 10⌋ :=
    if_pos (by positivity)
  constructor
  · rw [hch, gsm_channels_per_cell, htr]
  · rw [hcap, hch]

/-- C1 counterexample: at `traffic_demand = 36` the dimensioning result
for GSM carries `channels_per_cell = 3` (truncation of 3.6), while the
claim's formula `clamp(round(traffic_demand/10), 1, 8)` gives 4. -/
theorem claim_C1_cex :
    calculate_advanced_dimensioning 100 "GSM" 1000 "urban" 36 90 10 2 =
      .ok (dimension_value gsmParams 100 "GSM" 1000 "urban" 36 90 10 2) ∧
    (dimension_value gsmParams 100 "GSM" 1000 "urban" 36 90 10 2).channels_per_cell = 3 ∧
    ((min 8 (max 1 (round ((36 : ℝ) / 10))) : ℤ) : ℝ) = 4 := by
  have hfloor : ⌊(36 : ℝ) / 10⌋ = 3 := by
    apply Int.floor_eq_iff.mpr
    constructor <;> norm_num
  refine ⟨calc_ok (by simp [TELECOM_TECHNOLOGIES]) (by norm_num) (by norm_num) (by norm_num)
    (by norm_num), ?_, ?_⟩
  · unfold dimension_value
    dsimp only []
    rw [if_pos rfl]
    rw [gsm_channels_per_cell, int_trunc, if_pos (by norm_num : (0:ℝ) ≤ 36 / 10), hfloor]
    norm_num
  · have hround : round ((36 : ℝ) / 10) = 4 := by
      rw [round_eq]
      apply Int.floor_eq_iff.mpr
      constructor <;> norm_num
    rw [hround]
    norm_num

/-- C2 (amended): when the link budget is feasible at the initial lower
bracket 0.1 km, infeasible at the initial upper bracket 50 km, and
feasibility is monotonically non-increasing in distance, the radius
returned by the bisection is feasible and the link budget 0.02 km beyond
it is infeasible.  (Without the bracket hypotheses the returned 0.1 km
was never confirmed feasible — see the counterexample.) -/
theorem claim_C2_maxradius (tp : TechParams) (frequency hb hm : ℝ) (environment : String)
    (hf : 0 < frequency) (hhb : 0 < hb) (hhm : 0 < hm)
    (h01 : feasProp tp frequency 0.1 hb hm environment)
    (h50 : ¬ feasProp tp frequency 50 hb hm environment)
    (hmono : ∀ d1 d2 : ℝ, 0 < d1 → d1 ≤ d2 →
      feasProp tp frequency d2 hb hm environment →
        feasProp tp frequency d1 hb hm environment) :
    calculate_cell_radius tp frequency environment hb hm =
      .ok (radius_value tp frequency environment hb hm) ∧
    feasProp tp frequency (radius_value tp frequency environment hb hm) hb hm environment ∧
    ¬ feasProp tp frequency (radius_value tp frequency environment hb hm + 0.02) hb hm
      environment := by
  obtain ⟨hge, hfeas, hi', hinf, hle, hgap⟩ :=
    bisect_val_spec (fun d => feasProp tp frequency d hb hm environment) 0.01 13 0.1 50
      h01 h50 (by norm_num)
  have hrv : bisect_val (fun d => feasProp tp frequency d hb hm environment) 0.01 13 0.1 50 =
      radius_value tp frequency environment hb hm := rfl
  rw [hrv] at hge hle hgap
  refine ⟨calculate_cell_radius_ok hf hhb hhm, hfeas, ?_⟩
  intro hcon
  have hmaxeq : max (0.01 : ℝ) (((50 : ℝ) - 0.1) / 2 ^ 13) = 0.01 :=
    max_eq_left (by norm_num)
  rw [hmaxeq] at hgap
  have hpos : 0 < hi' := lt_of_lt_of_le (by norm_num) (le_trans hge hle)
  exact hinf (hmono hi' (radius_value tp frequency environment hb hm + 0.02) hpos
    (by linarith) hcon)

/-- Shape of the link margin for the GSM profile at 1000 MHz, hb = 10 m,
hm = 2 m, urban environment: an affine function of `log10 d`. -/
theorem gsm_margin_1000 (d : ℝ) :
    link_margin_val gsmParams 1000 d 10 2 "urban" = 16.11 - 38.35 * log10 d := by
  unfold link_margin_val received_power_val path_loss_val okumura_val ahm_val
  simp only [gsmParams, String.reduceEq, ite_false, reduceIte]
  rw [if_pos (show (150 : ℝ) ≤ 1000 ∧ (1000 : ℝ) ≤ 1500 by norm_num)]
  rw [log10_thousand, log10_ten]
  ring

/-- Shape of the link margin for the GSM profile at the out-of-band
frequency 10^8 MHz, hb = 10 m, hm = 2 m, urban environment. -/
theorem gsm_margin_1e8 (d : ℝ) :
    link_margin_val gsmParams 100000000 d 10 2 "urban" =
      -116.01 + (3.2 * log10 23.5 ^ 2 - 4.97) - 38.35 * log10 d := by
  unfold link_margin_val received_power_val path_loss_val okumura_val ahm_val
  simp only [gsmParams, String.reduceEq, ite_false, reduceIte]
  rw [if_neg (show ¬ ((150 : ℝ) ≤ 100000000 ∧ (100000000 : ℝ) ≤ 1500) by norm_num)]
  rw [show (11.75 : ℝ) * 2 = 23.5 by norm_num, log10_hundred_million, log10_ten]
  ring

/-- C2 counterexample: at the (extreme but admissible) frequency 10^8 MHz
with the GSM profile, feasibility is monotonically non-increasing in
distance, yet the bisection returns the initial lower bracket 0.1 km
without ever confirming it — and the link budget there is infeasible,
refuting the claim that the returned radius is always a
confirmed-feasible distance. -/
theorem claim_C2_cex :
    (∀ d1 d2 : ℝ, 0 < d1 → d1 ≤ d2 → feasProp gsmParams 100000000 d2 10 2 "urban" →
      feasProp gsmParams 100000000 d1 10 2 "urban") ∧
    calculate_cell_radius gsmParams 100000000 "urban" 10 2 = .ok 0.1 ∧
    ¬ feasProp gsmParams 100000000 0.1 10 2 "urban" := by
  have hinf : ∀ d : ℝ, 0.1 ≤ d → ¬ feasProp gsmParams 100000000 d 10 2 "urban" := by
    intro d hd hcon
    rw [feasProp, gsm_margin_1e8] at hcon
    have h1 := log10_23_5_le_two
    have h2 := log10_23_5_nonneg
    have h3 := log10_ge_neg_one hd
    nlinarith
  refine ⟨?_, ?_, hinf 0.1 le_rfl⟩
  · intro d1 d2 h1 h12 hf2
    rw [feasProp, gsm_margin_1e8] at hf2 ⊢
    have := log10_mono h1 h12
    linarith
  · rw [calculate_cell_radius_ok (by norm_num) (by norm_num) (by norm_num)]
    have hrv : radius_value gsmParams 100000000 "urban" 10 2 = 0.1 :=
      bisect_val_infeasible (fun d => feasProp gsmParams 100000000 d 10 2 "urban")
        0.01 0.1 hinf 13 50 (by norm_num)
    rw [hrv]

/-! ### Witnesses: each hypothesis-bearing claim theorem applied at a
concrete input -/

theorem claim_C1_witness :
    (0 : ℝ) ≤ 50 ∧ (50 : ℝ) ≤ 100 ∧
    calculate_advanced_dimensioning 100 "GSM" 1000 "urban" 50 90 10 2 =
      .ok (dimension_value gsmParams 100 "GSM" 1000 "urban" 50 90 10 2) ∧
    ((dimension_value gsmParams 100 "GSM" 1000 "urban" 50 90 10 2).channels_per_cell =
        ((min 8 (max 1 ⌊(50 : ℝ) / 10⌋) : ℤ) : ℝ) ∧
      (dimension_value gsmParams 100 "GSM" 1000 "urban" 50 90 10 2).capacity_per_cell =
        (dimension_value gsmParams 100 "GSM" 1000 "urban" 50 90 10 2).channels_per_cell *
          0.9) := by
  have hok : calculate_advanced_dimensioning 100 "GSM" 1000 "urban" 50 90 10 2 =
      .ok (dimension_value gsmParams 100 "GSM" 1000 "urban" 50 90 10 2) :=
    calc_ok (by simp [TELECOM_TECHNOLOGIES]) (by norm_num) (by norm_num) (by norm_num)
      (by norm_num)
  exact ⟨by norm_num, by norm_num, hok,
    claim_C1_gsm_capacity 100 1000 50 90 10 2 "urban" _ (by norm_num) (by norm_num) hok⟩

theorem claim_C2_witness :
    (0 : ℝ) < 1000 ∧ (0 : ℝ) < 10 ∧ (0 : ℝ) < 2 ∧
    feasProp gsmParams 1000 0.1 10 2 "urban" ∧
    ¬ feasProp gsmParams 1000 50 10 2 "urban" ∧
    (∀ d1 d2 : ℝ, 0 < d1 → d1 ≤ d2 → feasProp gsmParams 1000 d2 10 2 "urban" →
      feasProp gsmParams 1000 d1 10 2 "urban") ∧
    (calculate_cell_radius gsmParams 1000 "urban" 10 2 =
        .ok (radius_value gsmParams 1000 "urban" 10 2) ∧
      feasProp gsmParams 1000 (radius_value gsmParams 1000 "urban" 10 2) 10 2 "urban" ∧
      ¬ feasProp gsmParams 1000 (radius_value gsmParams 1000 "urban" 10 2 + 0.02) 10 2
        "urban") := by
  have h01 : feasProp gsmParams 1000 0.1 10 2 "urban" := by
    rw [feasProp, gsm_margin_1000, log10_tenth]
    norm_num
  have h50 : ¬ feasProp gsmParams 1000 50 10 2 "urban" := by
    rw [feasProp, gsm_margin_1000]
    intro hcon
    have := one_le_log10_fifty
    nlinarith
  have hmono : ∀ d1 d2 : ℝ, 0 < d1 → d1 ≤ d2 → feasProp gsmParams 1000 d2 10 2 "urban" →
      feasProp gsmParams 1000 d1 10 2 "urban" := by
    intro d1 d2 h1 h12 hf2
    rw [feasProp, gsm_margin_1000] at hf2 ⊢
    have := log10_mono h1 h12
    linarith
  exact ⟨by norm_num, by norm_num, by norm_num, h01, h50, hmono,
    claim_C2_maxradius gsmParams 1000 10 2 "urban" (by norm_num) (by norm_num) (by norm_num)
      h01 h50 hmono⟩

theorem claim_C3_witness :
    link_budget_calculation gsmParams 1000 1 10 2 "urban" =
      .ok (lbr_val gsmParams 1000 1 10 2 "urban") ∧
    ((lbr_val gsmParams 1000 1 10 2 "urban").received_power =
        gsmParams.tx_power_max + 18 + 0 - (lbr_val gsmParams 1000 1 10 2 "urban").path_loss -
          gsmParams.fade_margin - gsmParams.interference_margin - gsmParams.body_loss ∧
      (lbr_val gsmParams 1000 1 10 2 "urban").link_margin =
        (lbr_val gsmParams 1000 1 10 2 "urban").received_power - gsmParams.rx_sensitivity ∧
      ((lbr_val gsmParams 1000 1 10 2 "urban").link_feasible ↔
        (lbr_val gsmParams 1000 1 10 2 "urban").link_margin > 0) ∧
      (("urban" : String) = "free_space" →
        free_space_path_loss 1000 1 = .ok (lbr_val gsmParams 1000 1 10 2 "urban").path_loss) ∧
      (("urban" : String) ≠ "free_space" →
        okumura_hata_path_loss 1000 1 10 2 "urban" =
          .ok (lbr_val gsmParams 1000 1 10 2 "urban").path_loss)) := by
  have hok : link_budget_calculation gsmParams 1000 1 10 2 "urban" =
      .ok (lbr_val gsmParams 1000 1 10 2 "urban") :=
    link_budget_ok (by norm_num) (by norm_num) (by norm_num) (by norm_num)
  exact ⟨hok, claim_C3_link_budget gsmParams 1000 1 10 2 "urban" _ hok⟩

theorem claim_C4_witness :
    (0 : ℝ) < 1000 ∧ (0 : ℝ) < 10 ∧ (0 : ℝ) < 2 ∧
    (okumura_hata_path_loss 1000 10 10 2 "urban" =
      .ok (69.55 + 26.16 * log10 1000 - 13.82 * log10 10 -
        (if 150 ≤ (1000 : ℝ) ∧ (1000 : ℝ) ≤ 1500 then
          (1.1 * log10 1000 - 0.7) * 2 - (1.56 * log10 1000 - 0.8)
         else 3.2 * log10 (11.75 * 2) ^ 2 - 4.97) +
        (44.9 - 6.55 * log10 10) * log10 10) ∧
    okumura_hata_path_loss 1000 10 10 2 "suburban" =
      .ok ((69.55 + 26.16 * log10 1000 - 13.82 * log10 10 -
        (if 150 ≤ (1000 : ℝ) ∧ (1000 : ℝ) ≤ 1500 then
          (1.1 * log10 1000 - 0.7) * 2 - (1.56 * log10 1000 - 0.8)
         else 3.2 * log10 (11.75 * 2) ^ 2 - 4.97) +
        (44.9 - 6.55 * log10 10) * log10 10) - (2 * log10 ((1000 : ℝ) / 28) ^ 2 + 5.4)) ∧
    okumura_hata_path_loss 1000 10 10 2 "rural" =
      .ok ((69.55 + 26.16 * log10 1000 - 13.82 * log10 10 -
        (if 150 ≤ (1000 : ℝ) ∧ (1000 : ℝ) ≤ 1500 then
          (1.1 * log10 1000 - 0.7) * 2 - (1.56 * log10 1000 - 0.8)
         else 3.2 * log10 (11.75 * 2) ^ 2 - 4.97) +
        (44.9 - 6.55 * log10 10) * log10 10) -
        (4.78 * log10 1000 ^ 2 - 18.33 * log10 1000 + 40.94))) :=
  ⟨by norm_num, by norm_num, by norm_num,
    claim_C4_okumura 1000 10 10 2 _ (by norm_num) (by norm_num) (by norm_num) (by norm_num)
      rfl⟩

theorem claim_C5_witness :
    (0 : ℝ) < 100 ∧ (0 : ℝ) ≤ 50 ∧ (50 : ℝ) ≤ 100 ∧ (0 : ℝ) ≤ 90 ∧ (90 : ℝ) ≤ 100 ∧
    calculate_advanced_dimensioning 100 "GSM" 1000 "urban" 50 90 10 2 =
      .ok (dimension_value gsmParams 100 "GSM" 1000 "urban" 50 90 10 2) ∧
    ((dimension_value gsmParams 100 "GSM" 1000 "urban" 50 90 10 2).cell_area =
        3 * Real.sqrt 3 / 2 *
          (dimension_value gsmParams 100 "GSM" 1000 "urban" 50 90 10 2).optimal_radius ^ 2 ∧
      (dimension_value gsmParams 100 "GSM" 1000 "urban" 50 90 10 2).num_cells =
        ⌈(100 : ℝ) / (dimension_value gsmParams 100 "GSM" 1000 "urban" 50 90 10 2).cell_area⌉ ∧
      (100 : ℝ) ≤
        ((dimension_value gsmParams 100 "GSM" 1000 "urban" 50 90 10 2).num_cells : ℝ) *
          (dimension_value gsmParams 100 "GSM" 1000 "urban" 50 90 10 2).cell_area) := by
  have hok : calculate_advanced_dimensioning 100 "GSM" 1000 "urban" 50 90 10 2 =
      .ok (dimension_value gsmParams 100 "GSM" 1000 "urban" 50 90 10 2) :=
    calc_ok (by simp [TELECOM_TECHNOLOGIES]) (by norm_num) (by norm_num) (by norm_num)
      (by norm_num)
  exact ⟨by norm_num, by norm_num, by norm_num, by norm_num, by norm_num, hok,
    claim_C5_covering 100 1000 50 90 10 2 "GSM" "urban" _ (by norm_num) (by norm_num)
      (by norm_num) (by norm_num) (by norm_num) hok⟩

theorem claim_C6_witness :
    (0 : ℝ) ≤ 50 ∧ (0 : ℝ) ≤ 90 ∧ (90 : ℝ) ≤ 100 ∧
    calculate_advanced_dimensioning 100 "GSM" 1000 "urban" 50 90 10 2 =
      .ok (dimension_value gsmParams 100 "GSM" 1000 "urban" 50 90 10 2) ∧
    ((dimension_value gsmParams 100 "GSM" 1000 "urban" 50 90 10 2).optimal_radius =
        (dimension_value gsmParams 100 "GSM" 1000 "urban" 50 90 10 2).max_radius *
          (1 - 0.3 * min 1 ((50 : ℝ) / 100)) * ((90 : ℝ) / 100) ∧
      (dimension_value gsmParams 100 "GSM" 1000 "urban" 50 90 10 2).optimal_radius ≤
        (dimension_value gsmParams 100 "GSM" 1000 "urban" 50 90 10 2).max_radius) := by
  have hok : calculate_advanced_dimensioning 100 "GSM" 1000 "urban" 50 90 10 2 =
      .ok (dimension_value gsmParams 100 "GSM" 1000 "urban" 50 90 10 2) :=
    calc_ok (by simp [TELECOM_TECHNOLOGIES]) (by norm_num) (by norm_num) (by norm_num)
      (by norm_num)
  exact ⟨by norm_num, by norm_num, by norm_num, hok,
    claim_C6_optimal_radius 100 1000 50 90 10 2 "GSM" "urban" _ (by norm_num) (by norm_num)
      (by norm_num) hok⟩

theorem claim_C7_witness :
    calculate_advanced_dimensioning 100 "WIMAX" 1000 "urban" 50 90 10 2 =
      .error .keyError ∧
    ∃ tp, TELECOM_TECHNOLOGIES "GSM" = some tp :=
  ⟨(claim_C7_lookup 100 1000 50 90 10 2 "WIMAX" "urban").1 (by simp),
   (claim_C7_lookup 100 1000 50 90 10 2 "GSM" "urban").2 (Or.inl rfl)⟩

theorem claim_C8_witness :
    free_space_path_loss (-1) 5 = .error .domainError ∧
    free_space_path_loss 2 3 = .ok (fspl_val 2 3) ∧
    okumura_hata_path_loss 7 (-2) 4 5 "urban" = .error .domainError ∧
    okumura_hata_path_loss 7 3 4 (-5) "urban" = .error .domainError ∧
    okumura_hata_path_loss 1000 3 4 (-1) "urban" = .ok (okumura_val 1000 3 4 (-1) "urban") ∧
    okumura_hata_path_loss 2 3 4 5 "urban" = .ok (okumura_val 2 3 4 5 "urban") :=
  ⟨(claim_C8_domain (-1) 5 0 0 "urban").1 (Or.inl (by norm_num)),
   (claim_C8_domain 2 3 0 0 "urban").2.1 (by norm_num) (by norm_num),
   (claim_C8_domain 7 (-2) 4 5 "urban").2.2.1 (Or.inr (Or.inl (by norm_num))),
   (claim_C8_domain 7 3 4 (-5) "urban").2.2.2.1 (by norm_num) (by norm_num),
   (claim_C8_domain 1000 3 4 (-1) "urban").2.2.2.2.1 (by norm_num) (by norm_num)
     (by norm_num) (by norm_num),
   (claim_C8_domain 2 3 4 5 "urban").2.2.2.2.2 (by norm_num) (by norm_num) (by norm_num)
     (by norm_num)⟩

theorem claim_C9_witness :
    13 ≤ 14 ∧ (0.01 : ℝ) < 50 - 0.1 ∧
    link_feasible_at gsmParams 1000 10 2 "urban" (((0.1 : ℝ) + 50) / 2) =
      .ok (feasProp gsmParams 1000 (((0.1 : ℝ) + 50) / 2) 10 2 "urban") ∧
    (bisect (link_feasible_at gsmParams 1000 10 2 "urban") 0.01 14 0.1 50 =
        calculate_cell_radius gsmParams 1000 "urban" 10 2 ∧
      ∃ lo' hi', hi' - lo' = ((50 : ℝ) - 0.1) / 2 ∧
        bisect (link_feasible_at gsmParams 1000 10 2 "urban") 0.01 (0 + 1) 0.1 50 =
          bisect (link_feasible_at gsmParams 1000 10 2 "urban") 0.01 0 lo' hi') := by
  have hok : link_feasible_at gsmParams 1000 10 2 "urban" (((0.1 : ℝ) + 50) / 2) =
      .ok (feasProp gsmParams 1000 (((0.1 : ℝ) + 50) / 2) 10 2 "urban") :=
    link_feasible_at_ok (by norm_num) (by norm_num) (by norm_num) (by norm_num)
  exact ⟨by norm_num, by norm_num, hok,
    claim_C9_termination gsmParams 1000 10 2 "urban" 14 0.1 50 0 _ (by norm_num)
      (by norm_num) hok⟩

theorem claim_C10_witness :
    TELECOM_TECHNOLOGIES "GSM" = some gsmParams ∧ (0 : ℝ) < 100 ∧ (0 : ℝ) < 1000 ∧
    (0 : ℝ) < 10 ∧ (0 : ℝ) < 2 ∧
    calculate_advanced_dimensioning 100 "GSM" 1000 "urban" 50 0 10 2 =
      .error .zeroDivisionError := by
  have hT : TELECOM_TECHNOLOGIES "GSM" = some gsmParams := by simp [TELECOM_TECHNOLOGIES]
  exact ⟨hT, by norm_num, by norm_num, by norm_num, by norm_num,
    claim_C10_qos_zero 100 1000 50 10 2 "GSM" "urban" gsmParams hT (by norm_num)
      (by norm_num) (by norm_num) (by norm_num)⟩

end App
